import Mathlib

/-!
Verification development for the Robot-Egg-Collector control core
(`src/serial_io/codec.py`, `src/serial_io/protocol.py`, `src/serial_io/actor.py`,
`src/serial_io/arm.py`, `src/serial_io/bus.py`, `src/state_machine/context.py`,
`src/state_machine/controller.py`).

Bytes are modelled as `Nat` with explicit `% 256` wherever the Python code
masks with `& 0xFF`; byte buffers are `List Nat`.  Python floats that carry
pixel coordinates and confidence values are modelled as exact rationals.
-/

/-! ## Frame codec (`serial_io/codec.py`) -/

/-- A decoded frame (`DecodedFrame` in `codec.py`): raw bytes, group byte,
payload bytes, declared length and CRC flag. -/
structure DecodedFrame where
  raw : List Nat
  group : Nat
  payload : List Nat
  declared_length : Nat
  crc_ok : Bool
  deriving DecidableEq, Repr

/-- `FrameCodec.compute_crc`: running byte sum modulo 256
(`crc = (crc + (byte & 0xFF)) & 0xFF`). -/
def compute_crc (data : List Nat) : Nat :=
  data.foldl (fun crc b => (crc + b % 256) % 256) 0

/-- `FrameCodec.encode`: header `0x24 0x24`, length byte (defaulting to
`len(payload) + 3`), payload, checksum over everything so far, footer
`0x23 0x23`.  All bytes are masked with `% 256` as the Python code does
with `& 0xFF`. -/
def encode (payload : List Nat) (length? : Option Nat) : List Nat :=
  let payload_bytes := payload.map (· % 256)
  let length := (length?.getD (payload_bytes.length + 3)) % 256
  let body := [0x24, 0x24] ++ [length] ++ payload_bytes
  body ++ [compute_crc body] ++ [0x23, 0x23]

/-- `FrameCodec._find_header`: index of the first two-byte header
`0x24 0x24`, `none` when absent (Python returns `-1`). -/
def find_header : List Nat → Option Nat
  | a :: b :: rest =>
      if a = 0x24 ∧ b = 0x24 then some 0
      else (find_header (b :: rest)).map (· + 1)
  | _ => none

/-- Scan for the first two-byte footer `0x23 0x23` from the front. -/
def find_footer_idx : List Nat → Option Nat
  | a :: b :: rest =>
      if a = 0x23 ∧ b = 0x23 then some 0
      else (find_footer_idx (b :: rest)).map (· + 1)
  | _ => none

/-- `FrameCodec._find_footer(buffer, start)`: first footer occurrence at an
index `≥ start`. -/
def find_footer (buf : List Nat) (start : Nat) : Option Nat :=
  (find_footer_idx (buf.drop start)).map (· + start)

/-- Outcome of one iteration of the `extract_frames` loop:
`done` = the Python `break` (argument = buffer contents left behind),
`drop` = `del buffer[0]` followed by `continue`,
`frame` = a decoded frame was appended and its bytes consumed. -/
inductive StepResult where
  | done (rest : List Nat)
  | drop (rest : List Nat)
  | frame (f : DecodedFrame) (rest : List Nat)
  deriving DecidableEq, Repr

/-- Tail of the `extract_frames` loop body, shared by the in-place footer
path and the footer-recovery path: checksum split, group/payload split, and
consumption of the frame bytes (`codec.py` lines 105-126). -/
def mk_frame (b : List Nat) (total : Nat) : StepResult :=
  let fb := b.take total
  let crc_index := fb.length - 3
  if crc_index ≤ 3 then .drop (b.drop 1)
  else
    let crc_byte := fb.getD crc_index 0
    let computed := compute_crc (fb.take crc_index)
    let payload_bytes := (fb.drop 3).take (crc_index - 3)
    .frame
      { raw := fb
        group := payload_bytes.headD 0
        payload := payload_bytes.drop 1
        declared_length := total - 3
        crc_ok := crc_byte == computed }
      (b.drop total)

/-- One iteration of the `while True` loop of `FrameCodec.extract_frames`
(`codec.py` lines 62-126): minimum-size check, header resync, declared
length check, completeness check, footer check with recovery scan. -/
def extract_step (buf : List Nat) : StepResult :=
  if buf.length < 7 then .done buf
  else
    match find_header buf with
    | none => .done []
    | some i =>
      let b := buf.drop i
      if b.length < 7 then .done b
      else
        let declared := b.getD 2 0
        let total := 3 + declared
        if total < 7 then .drop (b.drop 1)
        else if b.length < total then .done b
        else
          let fb := b.take total
          if fb.drop (fb.length - 2) = [0x23, 0x23] then mk_frame b total
          else
            match find_footer b 3 with
            | none => .done b
            | some tail =>
              let total2 := tail + 2
              if b.length < total2 then .done b
              else mk_frame b total2

/-- Fuel-indexed unfolding of the `extract_frames` loop. -/
def extract_go : Nat → List Nat → List DecodedFrame
  | 0, _ => []
  | fuel + 1, buf =>
    match extract_step buf with
    | .done _ => []
    | .drop rest => extract_go fuel rest
    | .frame f rest => f :: extract_go fuel rest

/-- `FrameCodec.extract_frames`.  Each loop iteration that does not break
removes at least one byte from the buffer, so `buffer.length + 1` rounds of
fuel always suffice (proved below as part of claim C7). -/
def extract_frames (buf : List Nat) : List DecodedFrame :=
  extract_go (buf.length + 1) buf

/-! ## Protocol helpers (`serial_io/protocol.py`) -/

def ACTOR_GROUP_COMMAND : Nat := 0x04
def ACTOR_GROUP_STATUS : Nat := 0x03
def ARM_GROUP_COMMAND : Nat := 0x04
def ARM_GROUP_STATUS : Nat := 0x03

/-- `ActorStatus` from `protocol.py`: moving flag plus optional forward
obstacle distance in centimeters. -/
structure ActorStatus where
  is_moving : Bool
  distance_cm : Option Nat
  deriving DecidableEq, Repr

/-- `ArmStatus` from `protocol.py`. -/
structure ArmStatus where
  is_busy : Bool
  deriving DecidableEq, Repr

/-- `build_actor_command`: group `0x03` for `READ_STATUS` (opcode `0x05`),
group `0x04` otherwise; length byte = payload length + 3. -/
def build_actor_command (command : Nat) : List Nat :=
  let group := if command = 0x05 then ACTOR_GROUP_STATUS else ACTOR_GROUP_COMMAND
  let payload := [group, command]
  encode payload (some (payload.length + 3))

/-- `build_arm_pick_command`: clamps the coordinates into `[0, 0xFFFF]`
(the Python `int(round(...))` is the identity on the integer inputs the
context supplies) and encodes them big-endian with the length byte fixed at
`0x06` for datasheet compatibility. -/
def build_arm_pick_command (x_mm y_mm : Int) : List Nat :=
  let x := (max 0 (min 0xFFFF x_mm)).toNat
  let y := (max 0 (min 0xFFFF y_mm)).toNat
  let payload := [ARM_GROUP_COMMAND, x / 256 % 256, x % 256, y / 256 % 256, y % 256]
  encode payload (some 0x06)

/-- `parse_actor_status`: `none` models the `ValueError` raised on a frame
whose group is not the status group; otherwise the first payload byte is the
moving flag and the second, when present, the obstacle distance. -/
def parse_actor_status (frame : DecodedFrame) : Option ActorStatus :=
  if frame.group ≠ ACTOR_GROUP_STATUS then none
  else
    let data := frame.payload
    let moving_flag := data.headD 0
    let distance := data[1]?
    some { is_moving := moving_flag ≠ 0, distance_cm := distance }

/-- `parse_arm_status`. -/
def parse_arm_status (frame : DecodedFrame) : Option ArmStatus :=
  if frame.group ≠ ARM_GROUP_STATUS then none
  else some { is_busy := frame.payload.headD 0 ≠ 0 }

/-! ## Link layer (`serial_io/bus.py`, `serial_io/actor.py`, `serial_io/arm.py`)

A single `request` on the shared bus is modelled by its externally visible
outcome: the serial write raised (`sendFailure`), no frame matching the
predicate arrived within the timeout (`timeout`), or the reader completed
the pending wait with a frame (`reply`). -/

inductive BusOutcome where
  | sendFailure
  | timeout
  | reply (f : DecodedFrame)
  deriving DecidableEq, Repr

/-- `SharedSerialBus.request` (`bus.py` lines 108-115): registers a pending
wait and writes the frame; when the write raises, the wait is cancelled and
the exception is re-raised (`.error`); otherwise the first frame matching
the predicate completes the wait (`some`), or the wait times out (`none`). -/
def bus_request (outcome : BusOutcome) (predicate : DecodedFrame → Bool) :
    Except Unit (Option DecodedFrame) :=
  match outcome with
  | .sendFailure => .error ()
  | .timeout => .ok none
  | .reply f => if predicate f then .ok (some f) else .ok none

/-- ACK predicate of `ActorLink._send_command`: group `0x04` and first
payload byte `0xFF`. -/
def actor_ack_predicate (f : DecodedFrame) : Bool :=
  f.group == ACTOR_GROUP_COMMAND && f.payload.take 1 == [0xFF]

/-- ACK predicate of `ArmLink.pick`: group `0x04`, non-empty payload whose
first byte is `0xFF`. -/
def arm_ack_predicate (f : DecodedFrame) : Bool :=
  f.group == ARM_GROUP_COMMAND && decide (1 ≤ f.payload.length)
    && f.payload.headD 0 == 0xFF

/-- `ActorLink._send_command` (`actor.py` lines 91-109): builds the framed
command and issues the bus request; `None` (timeout) and invalid CRC map to
`false`, a CRC-valid ACK to `true`.  There is no `try/except`, so an
exception raised by `request` propagates to the caller. -/
def actor_send_command (command : Nat) (outcome : BusOutcome) : Except Unit Bool :=
  let _frame := build_actor_command command
  match bus_request outcome actor_ack_predicate with
  | .error e => .error e
  | .ok none => .ok false
  | .ok (some ack) => .ok ack.crc_ok

/-- `ArmLink.pick` (`arm.py` lines 50-70): same outcome handling as the
actor commands, with the pick frame and the arm ACK predicate. -/
def arm_link_pick (x_mm y_mm : Int) (outcome : BusOutcome) : Except Unit Bool :=
  let _frame := build_arm_pick_command x_mm y_mm
  match bus_request outcome arm_ack_predicate with
  | .error e => .error e
  | .ok none => .ok false
  | .ok (some ack) => .ok ack.crc_ok

/-! ## Control context and state machine
(`state_machine/context.py`, `state_machine/controller.py`)

Pixel coordinates and confidences (Python floats) are modelled as exact
rationals.  The scheduler's timer start/cancel calls are external effects
with no influence on the state the claims are about; timer firings are
modelled as externally supplied `timer` events.  Results of serial commands
(ACK received or not) are supplied by an oracle stream `acks`, consumed one
entry per issued command; the issued commands are accumulated in `trace`. -/

/-- Exact rational addition.  The helpers `qadd`/`qsub`/`qmul`/`qdiv`/`qabs`
are mathematically the field operations of `ℚ` (certified below by the
theorems `qadd_eq` … `qabs_eq`); they are spelled with `Rat.divInt` so that
concrete scenario runs reduce inside the kernel. -/
def qadd (a b : ℚ) : ℚ := Rat.divInt (a.num * b.den + b.num * a.den) (a.den * b.den)

/-- Exact rational subtraction (see `qadd`). -/
def qsub (a b : ℚ) : ℚ := Rat.divInt (a.num * b.den - b.num * a.den) (a.den * b.den)

/-- Exact rational multiplication (see `qadd`). -/
def qmul (a b : ℚ) : ℚ := Rat.divInt (a.num * b.num) (a.den * b.den)

/-- Exact rational division (see `qadd`). -/
def qdiv (a b : ℚ) : ℚ := Rat.divInt (a.num * b.den) (a.den * b.num)

/-- Exact rational absolute value (see `qadd`). -/
def qabs (a : ℚ) : ℚ := Rat.divInt |a.num| a.den

/-- Python `max` on two rationals. -/
def qmax (a b : ℚ) : ℚ := if a ≤ b then b else a

/-- `BoundingBox` (`core/entities/detection.py`). -/
structure BoundingBox where
  x1 : ℚ
  y1 : ℚ
  x2 : ℚ
  y2 : ℚ
  deriving DecidableEq, Repr

def BoundingBox.width (b : BoundingBox) : ℚ := qmax 0 (qsub b.x2 b.x1)

def BoundingBox.height (b : BoundingBox) : ℚ := qmax 0 (qsub b.y2 b.y1)

def BoundingBox.center (b : BoundingBox) : ℚ × ℚ :=
  (qadd b.x1 (qdiv b.width 2), qadd b.y1 (qdiv b.height 2))

/-- `Detection` (`core/entities/detection.py`). -/
structure Detection where
  id : Nat
  label : String
  confidence : ℚ
  bbox : BoundingBox
  deriving DecidableEq, Repr

def Detection.center (d : Detection) : ℚ × ℚ := d.bbox.center

/-- `FrameData` (`core/entities/frame.py`); only the image dimensions and
frame id are consumed by the control core (`image.shape[:2]`). -/
structure FrameData where
  image_height : Nat
  image_width : Nat
  frame_id : Nat
  deriving DecidableEq, Repr

/-- `BehaviourConfig` (`config/models.py`). -/
structure BehaviourConfig where
  distance_stop_threshold_cm : ℚ
  detection_center_tolerance : ℚ
  detection_min_confidence : ℚ
  max_arm_pick_attempts : Nat
  deriving DecidableEq, Repr

/-- `ActorMotion` (`state_machine/context.py`). -/
inductive ActorMotion where
  | STOPPED
  | FORWARD
  | TURNING
  deriving DecidableEq, Repr

/-- The seven FSM states of `ControlStateMachine`. -/
inductive FsmState where
  | idle
  | scan_and_move
  | pick_up_egg
  | turn_first
  | scan_only
  | move_only
  | turn_second
  deriving DecidableEq, Repr

/-- The four motion commands `ActorLink` can issue on behalf of the
context (`move_forward`, `move_backward`, `stop_motion`, `turn_90`). -/
inductive ActorCmd where
  | MOVE_FORWARD
  | MOVE_BACKWARD
  | STOP
  | TURN_90
  deriving DecidableEq, Repr

/-- One serial command issued by the control core; `armPick` is tagged with
the id of the detection target it was issued for. -/
inductive IssuedCmd where
  | actor (command : ActorCmd)
  | armPick (target_id : Nat) (x_mm y_mm : Int)
  deriving DecidableEq, Repr

/-- `TimerId` (`services/events.py`). -/
inductive TimerId where
  | ACTOR_STATUS
  | ARM_STATUS
  | SCAN_ONLY_TIMEOUT
  | MOVE_ONLY_COUNTDOWN
  | TURN_CHECK
  deriving DecidableEq, Repr

/-- Combined state of `ControlContext` and `ControlStateMachine`, plus the
ack oracle, the trace of issued serial commands, and a counter of
`TransitionNotAllowed` errors raised by the state-machine library and
caught by the engine's dispatch loop.  `pick_attempts` models the Python
dict `_pick_attempts` as a total function with default `0`. -/
structure ControlState where
  fsm : FsmState
  behaviour : BehaviourConfig
  current_frame : Option FrameData
  current_detections : List Detection
  latest_actor_status : Option ActorStatus
  latest_arm_status : Option ArmStatus
  pick_queue : List Detection
  pick_attempts : Nat → Nat
  current_target : Option Detection
  waiting_for_arm : Bool
  actor_motion : ActorMotion
  acks : List Bool
  trace : List IssuedCmd
  invalid_transitions : Nat

/-- Issue one actor serial command: record it in the trace and consume the
next oracle entry as the boolean result of `ActorLink.<command>` (an
exhausted oracle behaves as a timeout, result `false`). -/
def issue_actor (c : ActorCmd) (w : ControlState) : Bool × ControlState :=
  (w.acks.headD false,
   { w with acks := w.acks.tail, trace := w.trace ++ [.actor c] })

/-- Issue one `arm.pick` serial command, analogous to `issue_actor`. -/
def issue_arm_pick (tid : Nat) (x_mm y_mm : Int) (w : ControlState) :
    Bool × ControlState :=
  (w.acks.headD false,
   { w with acks := w.acks.tail, trace := w.trace ++ [.armPick tid x_mm y_mm] })

/-- `ControlContext.update_detections`. -/
def update_detections (dets : List Detection) (frame : FrameData)
    (w : ControlState) : ControlState :=
  { w with current_detections := dets, current_frame := some frame }

/-- `ControlContext.update_actor_status`: records the status and infers
motion (`is_moving` upgrades `STOPPED` to `FORWARD`; a stationary report
always forces `STOPPED`). -/
def update_actor_status (st : ActorStatus) (w : ControlState) : ControlState :=
  let w := { w with latest_actor_status := some st }
  if st.is_moving then
    if w.actor_motion = .STOPPED then { w with actor_motion := .FORWARD } else w
  else
    { w with actor_motion := .STOPPED }

/-- `ControlContext.update_arm_status`. -/
def update_arm_status (st : ArmStatus) (w : ControlState) : ControlState :=
  let w := { w with latest_arm_status := some st }
  if st.is_busy = false ∧ w.waiting_for_arm then { w with waiting_for_arm := false }
  else w

/-- `ControlContext._filter_candidates`: detections above the confidence
threshold whose center lies within the horizontal tolerance band around the
image center. -/
def filter_candidates (w : ControlState) : List Detection :=
  match w.current_frame with
  | none => []
  | some frame =>
    let width : ℚ := frame.image_width
    let center_x := qdiv width 2
    let tolerance_px := qmul width w.behaviour.detection_center_tolerance
    w.current_detections.filter fun det =>
      decide (w.behaviour.detection_min_confidence ≤ det.confidence)
        && decide (qabs (qsub det.center.1 center_x) ≤ tolerance_px)

/-- `ControlContext.has_pick_candidates`. -/
def has_pick_candidates (w : ControlState) : Bool :=
  decide (filter_candidates w ≠ [])

/-- `ControlContext.prepare_pick_queue`: sort the candidates by proximity
to the image center (stable ascending, like Python `list.sort`) into the
pick queue. -/
def prepare_pick_queue (w : ControlState) : Bool × ControlState :=
  let candidates := filter_candidates w
  if candidates = [] then (false, { w with pick_queue := [] })
  else
    match w.current_frame with
    | none => (false, w)
    | some frame =>
      let center_x : ℚ := qdiv (frame.image_width : ℚ) 2
      let sorted := candidates.mergeSort fun a b =>
        decide (qabs (qsub a.center.1 center_x) ≤ qabs (qsub b.center.1 center_x))
      (true, { w with pick_queue := sorted })

/-- `ControlContext.refresh_pick_queue`: no-op unless the queue is empty. -/
def refresh_pick_queue (w : ControlState) : ControlState :=
  if w.pick_queue = [] then (prepare_pick_queue w).2 else w

/-- Python `round` (half to even), on exact rationals. -/
def pyRound (q : ℚ) : Int :=
  let f := ⌊q⌋
  let r := qsub q f
  if r < mkRat 1 2 then f
  else if mkRat 1 2 < r then f + 1
  else if f % 2 = 0 then f else f + 1

/-- `ControlContext._map_detection_to_mm`: identity pixel-to-millimeter
mapping (calibration placeholder), rounded to integers. -/
def map_detection_to_mm (w : ControlState) (det : Detection) : Int × Int :=
  match w.current_frame with
  | none => (0, 0)
  | some _ => (pyRound det.center.1, pyRound det.center.2)

/-- Loop body of `ControlContext.command_next_pick`: pop targets until one
below the attempt budget is acknowledged.  Picking a target always
increments its attempt counter, acknowledged or not. -/
def command_next_pick_go : List Detection → ControlState → Bool × ControlState
  | [], w => (false, { w with current_target := none })
  | target :: rest, w =>
    let w := { w with pick_queue := rest }
    let attempts := w.pick_attempts target.id
    if w.behaviour.max_arm_pick_attempts ≤ attempts then
      command_next_pick_go rest w
    else
      let coords := map_detection_to_mm w target
      let r := issue_arm_pick target.id coords.1 coords.2 w
      let w := { r.2 with pick_attempts :=
        fun j => if j = target.id then attempts + 1 else r.2.pick_attempts j }
      if r.1 then
        (true, { w with current_target := some target, waiting_for_arm := true })
      else
        command_next_pick_go rest w

/-- `ControlContext.command_next_pick` (`context.py` lines 139-172): early
return `false` on an empty queue (without touching `current_target`),
otherwise run the pop loop. -/
def command_next_pick (w : ControlState) : Bool × ControlState :=
  if w.pick_queue = [] then (false, w)
  else command_next_pick_go w.pick_queue w

/-- `ControlContext.complete_current_pick`. -/
def complete_current_pick (w : ControlState) : ControlState :=
  { w with current_target := none, waiting_for_arm := false }

/-- `ControlContext.clear_pick_cycle`: resets queue, current target and
waiting flag (and nothing else; in particular `pick_attempts` is kept). -/
def clear_pick_cycle (w : ControlState) : ControlState :=
  { w with pick_queue := [], current_target := none, waiting_for_arm := false }

/-- `ControlContext.should_rotate_due_to_obstacle` (`context.py` lines
190-197); a pure read of the context. -/
def should_rotate_due_to_obstacle (w : ControlState) : Bool :=
  match w.latest_actor_status with
  | none => false
  | some status =>
    match status.distance_cm with
    | none => false
    | some d =>
      if w.actor_motion = .TURNING then false
      else decide ((d : ℚ) ≤ w.behaviour.distance_stop_threshold_cm)

/-- `ControlContext.ensure_actor_stopped`: short-circuits when already
stopped, otherwise issues `STOP` and updates the inferred motion only on
success. -/
def ensure_actor_stopped (w : ControlState) : Bool × ControlState :=
  if w.actor_motion = .STOPPED then (true, w)
  else
    let r := issue_actor .STOP w
    if r.1 then (true, { r.2 with actor_motion := .STOPPED })
    else (false, r.2)

/-- `ControlContext.command_move_forward` (`context.py` lines 213-225). -/
def command_move_forward (w : ControlState) : Bool × ControlState :=
  if w.actor_motion = .FORWARD then (true, w)
  else
    let r := issue_actor .MOVE_FORWARD w
    if r.1 then (true, { r.2 with actor_motion := .FORWARD })
    else (false, r.2)

/-- `ControlContext.command_turn`: always issues `TURN_90`. -/
def command_turn (w : ControlState) : Bool × ControlState :=
  let r := issue_actor .TURN_90 w
  if r.1 then (true, { r.2 with actor_motion := .TURNING })
  else (false, r.2)

/-! ### State-machine transitions and entry hooks (`controller.py`)

The `statemachine` library runs, for each fired transition, the exit hook of
the source state, updates the current state, then runs the entry hook of the
target state.  Entry hooks may themselves fire transitions (`finish_picking`
inside `on_enter_pick_up_egg`, the fail-forward completions inside the two
turn states); those chains are finite and are written out below.  Timer
start/cancel calls inside the hooks are scheduler effects outside this
model. -/

/-- `on_enter_scan_and_move`: cancel both FSM timers, clear the pick cycle,
command forward motion. -/
def enter_scan_and_move (w : ControlState) : ControlState :=
  (command_move_forward (clear_pick_cycle w)).2

/-- `on_enter_scan_only`: cancel the MoveOnly timer, start the ScanOnly
timer, hold position. -/
def enter_scan_only (w : ControlState) : ControlState :=
  (ensure_actor_stopped w).2

/-- `on_enter_move_only`: start the MoveOnly timer, command forward
motion. -/
def enter_move_only (w : ControlState) : ControlState :=
  (command_move_forward w).2

/-- `on_enter_turn_first`: issue the turn; on failure fire
`first_turn_complete` immediately (TurnFirst has no exit hook). -/
def enter_turn_first (w : ControlState) : ControlState :=
  let r := command_turn w
  if r.1 then r.2 else enter_scan_only { r.2 with fsm := .scan_only }

/-- `on_enter_turn_second`: issue the turn; on failure fire
`second_turn_complete` immediately. -/
def enter_turn_second (w : ControlState) : ControlState :=
  let r := command_turn w
  if r.1 then r.2 else enter_scan_and_move { r.2 with fsm := .scan_and_move }

/-- The `finish_picking` transition (PickUpEgg → ScanAndMove): exit hook
`on_exit_pick_up_egg` (= `clear_pick_cycle`), then enter ScanAndMove. -/
def finish_picking (w : ControlState) : ControlState :=
  enter_scan_and_move { clear_pick_cycle w with fsm := .scan_and_move }

/-- `on_enter_pick_up_egg`: cancel both FSM timers, build the pick queue
and start the first pick; on either failure fire `finish_picking`
immediately. -/
def enter_pick_up_egg (w : ControlState) : ControlState :=
  let r := prepare_pick_queue w
  if r.1 = false then finish_picking r.2
  else
    let r2 := command_next_pick r.2
    if r2.1 = false then finish_picking r2.2 else r2.2

/-- The `commence_pick` transition as fired by `handle_detection`: it is
defined only from ScanAndMove, ScanOnly and MoveOnly; from any other state
the library raises `TransitionNotAllowed`, which the engine's dispatch
catch-all logs (state unchanged, error counted). -/
def commence_pick_attempt (w : ControlState) : ControlState :=
  if w.fsm = .scan_and_move ∨ w.fsm = .scan_only ∨ w.fsm = .move_only then
    enter_pick_up_egg { w with fsm := .pick_up_egg }
  else
    { w with invalid_transitions := w.invalid_transitions + 1 }

/-- `ControlStateMachine.handle_detection` (`controller.py` lines
135-154). -/
def handle_detection (dets : List Detection) (frame : FrameData)
    (w : ControlState) : ControlState :=
  let w := update_detections dets frame w
  if w.fsm = .pick_up_egg then
    if dets = [] ∧ w.waiting_for_arm = false then finish_picking w
    else refresh_pick_queue w
  else if has_pick_candidates w = false then w
  else
    let r := ensure_actor_stopped w
    if r.1 = false then r.2
    else commence_pick_attempt r.2

/-- `ControlStateMachine.handle_actor_status` (`controller.py` lines
156-172). -/
def handle_actor_status (st : ActorStatus) (w : ControlState) : ControlState :=
  let w := update_actor_status st w
  if w.fsm = .turn_first ∧ st.is_moving = false then
    enter_scan_only { w with fsm := .scan_only }
  else if w.fsm = .turn_second ∧ st.is_moving = false then
    enter_scan_and_move { w with fsm := .scan_and_move }
  else if w.fsm = .scan_and_move ∧ should_rotate_due_to_obstacle w = true then
    let r := ensure_actor_stopped w
    if r.1 = false then r.2
    else enter_turn_first { r.2 with fsm := .turn_first }
  else w

/-- `ControlStateMachine.handle_arm_status` (`controller.py` lines
174-192). -/
def handle_arm_status (st : ArmStatus) (w : ControlState) : ControlState :=
  let waiting_before := w.waiting_for_arm
  let w := update_arm_status st w
  if w.fsm ≠ .pick_up_egg then w
  else if st.is_busy then w
  else
    let w := if waiting_before then complete_current_pick w else w
    let r := command_next_pick w
    if r.1 then r.2
    else if r.2.pick_queue = [] ∧ r.2.waiting_for_arm = false then
      finish_picking r.2
    else r.2

/-- `ControlStateMachine.handle_timer` (`controller.py` lines 194-203):
`scan_timeout` in ScanOnly, `move_timer_elapsed` (after a best-effort stop)
in MoveOnly; both transitions run the source state's timer-cancelling exit
hook, which is outside this model. -/
def handle_timer (tid : TimerId) (w : ControlState) : ControlState :=
  if tid = .SCAN_ONLY_TIMEOUT ∧ w.fsm = .scan_only then
    enter_move_only { w with fsm := .move_only }
  else if tid = .MOVE_ONLY_COUNTDOWN ∧ w.fsm = .move_only then
    let r := ensure_actor_stopped w
    enter_turn_second { r.2 with fsm := .turn_second }
  else w

/-- Externally observable control events as dispatched by the engine's
event loop. -/
inductive ControlEvent where
  | detection (detections : List Detection) (frame : FrameData)
  | actor_status (status : ActorStatus)
  | arm_status (status : ArmStatus)
  | timer (timer_id : TimerId)

/-- `ControlEngine._dispatch_event` / `_handle_timer_event`: status and
detection events go to the FSM handlers; the two periodic poll timers are
consumed by the engine itself (their effect — a fresh status report — shows
up as a later `actor_status` / `arm_status` event). -/
def dispatch (e : ControlEvent) (w : ControlState) : ControlState :=
  match e with
  | .detection dets frame => handle_detection dets frame w
  | .actor_status st => handle_actor_status st w
  | .arm_status st => handle_arm_status st w
  | .timer tid =>
    match tid with
    | .ACTOR_STATUS => w
    | .ARM_STATUS => w
    | _ => handle_timer tid w

/-- Serialized dispatch of a list of events (the engine's event loop). -/
def run_events (es : List ControlEvent) (w : ControlState) : ControlState :=
  es.foldl (fun w e => dispatch e w) w

/-- The `start_patrol` transition fired by `ControlEngine.start` from the
initial Idle state. -/
def start_patrol (w : ControlState) : ControlState :=
  enter_scan_and_move { w with fsm := .scan_and_move }

/-- Freshly constructed context and state machine (all caches empty,
motion inferred as stopped, FSM in Idle). -/
def initial_state (behaviour : BehaviourConfig) (acks : List Bool) : ControlState :=
  { fsm := .idle
    behaviour := behaviour
    current_frame := none
    current_detections := []
    latest_actor_status := none
    latest_arm_status := none
    pick_queue := []
    pick_attempts := fun _ => 0
    current_target := none
    waiting_for_arm := false
    actor_motion := .STOPPED
    acks := acks
    trace := []
    invalid_transitions := 0 }

/-- The behaviour configuration used by the concrete scenario runs below:
the spec's scenario values (threshold 30 cm, tolerance 0.2, minimum
confidence 0.5, three pick attempts), matching the defaults in
`config/models.py`. -/
def demo_behaviour : BehaviourConfig :=
  { distance_stop_threshold_cm := 30
    detection_center_tolerance := mkRat 1 5
    detection_min_confidence := mkRat 1 2
    max_arm_pick_attempts := 3 }

/-- Rest of the buffer after a loop iteration that did not break
(`none` when the iteration broke out of the loop). -/
def step_rest : StepResult → Option (List Nat)
  | .done _ => none
  | .drop r => some r
  | .frame _ r => some r

/-- Relation between a control state and a later one: the behaviour
configuration is unchanged, the attempt counter of `tid` has not decreased,
and no `arm.pick` for `tid` was issued in between. -/
def NoFurtherPick (tid : Nat) (w w' : ControlState) : Prop :=
  w'.behaviour = w.behaviour ∧
  w.pick_attempts tid ≤ w'.pick_attempts tid ∧
  ∃ tr, w'.trace = w.trace ++ tr ∧ ∀ x y, IssuedCmd.armPick tid x y ∉ tr

/-- The corrupted bus buffer of the spec's frame-resync scenario. -/
def c5_buffer : List Nat :=
  [0xAA, 0xBB, 0x24, 0x24, 0x05, 0x03, 0x00, 0x64, 0xB5, 0x23, 0x23]

/-- The egg detection of the spec's happy-path scenario (bbox
`(200, 240, 280, 300)`, confidence 0.9). -/
def scenario_egg : Detection :=
  { id := 0, label := "egg", confidence := mkRat 9 10,
    bbox := { x1 := 200, y1 := 240, x2 := 280, y2 := 300 } }

/-- The 640×480 frame of the spec's happy-path scenario. -/
def scenario_frame : FrameData :=
  { image_height := 480, image_width := 640, frame_id := 1 }

/-- State right after `ControlEngine.start` fires `start_patrol` (all
serial commands acknowledged). -/
def patrol_start : ControlState :=
  start_patrol (initial_state demo_behaviour (List.replicate 8 true))

/-- The spec's obstacle scenario up to ScanOnly: an obstacle at 25 cm is
reported while patrolling (stop + first turn), then the turn completes;
the recorded status still says `distance_cm = 25`. -/
def obstacle_run : ControlState :=
  run_events [.actor_status { is_moving := true, distance_cm := some 25 },
              .actor_status { is_moving := false, distance_cm := some 25 }]
    patrol_start

/-- State in TurnFirst, reached from patrol by an obstacle report. -/
def turning_state : ControlState :=
  dispatch (.actor_status { is_moving := true, distance_cm := some 25 }) patrol_start

/-- A context whose pick queue holds one target, used to exercise
`command_next_pick`. -/
def pick_ready : ControlState :=
  { initial_state demo_behaviour [true] with
      current_frame := some scenario_frame,
      pick_queue := [scenario_egg] }

/-- A context in which target id 7 has already consumed its entire attempt
budget. -/
def budget_spent : ControlState :=
  { initial_state demo_behaviour [true, true] with
      pick_attempts := fun j => if j = 7 then 3 else 0 }

/-! ## Theorems -/

theorem getD_append_length (l1 l2 : List Nat) (d : Nat) :
    (l1 ++ l2).getD l1.length d = l2.headD d := by
  induction l1 with
  | nil => cases l2 <;> simp [List.getD]
  | cons a t ih => simpa using ih

theorem map_mod256_eq_self (l : List Nat) (hl : ∀ b ∈ l, b < 256) :
    l.map (· % 256) = l := by
  induction l with
  | nil => rfl
  | cons a t ih =>
    simp only [List.map_cons]
    rw [Nat.mod_eq_of_lt (hl a (by simp)), ih (fun b hb => hl b (by simp [hb]))]

/-- Decoding one complete well-formed frame whose declared length matches
its real extent: the in-place footer path of `extract_frames`. -/
theorem extract_step_wellformed (L c : Nat) (p : List Nat) (hp : p ≠ [])
    (hL : L = p.length + 3) :
    extract_step ([36, 36, L] ++ p ++ [c, 35, 35]) =
      .frame { raw := [36, 36, L] ++ p ++ [c, 35, 35], group := p.headD 0,
               payload := p.drop 1, declared_length := L,
               crc_ok := c == compute_crc ([36, 36, L] ++ p) } [] := by
  have hplen : 1 ≤ p.length := by
    cases p with
    | nil => simp at hp
    | cons a t => simp
  have hlen : ([36, 36, L] ++ p ++ [c, 35, 35]).length = p.length + 6 := by simp
  unfold extract_step
  rw [show find_header ([36, 36, L] ++ p ++ [c, 35, 35]) = some 0 from by
    simp [find_header]]
  simp only [List.drop_zero]
  rw [if_neg (by omega)]
  rw [if_neg (by omega)]
  have hg : ([36, 36, L] ++ p ++ [c, 35, 35]).getD 2 0 = L := by
    simp [List.getD]
  rw [hg]
  rw [if_neg (by omega)]
  rw [if_neg (by omega)]
  have hsplit : [36, 36, L] ++ p ++ [c, 35, 35] =
      ([36, 36, L] ++ p ++ [c]) ++ [35, 35] := by simp
  have htake : List.take (3 + L) ([36, 36, L] ++ p ++ [c, 35, 35]) =
      [36, 36, L] ++ p ++ [c, 35, 35] := List.take_of_length_le (by omega)
  rw [htake, hlen]
  rw [if_pos (by
    rw [hsplit]
    have h2 : p.length + 6 - 2 = ([36, 36, L] ++ p ++ [c]).length := by simp
    rw [h2, List.drop_left])]
  unfold mk_frame
  rw [htake]
  have harith1 : p.length + 6 - 3 = p.length + 3 := by omega
  simp only [hlen, harith1]
  rw [if_neg (by omega)]
  have hpre : ([36, 36, L] ++ p).length = p.length + 3 := by simp
  have hassoc : [36, 36, L] ++ p ++ [c, 35, 35] = ([36, 36, L] ++ p) ++ [c, 35, 35] := by
    simp
  have hgetD : ([36, 36, L] ++ p ++ [c, 35, 35]).getD (p.length + 3) 0 = c := by
    rw [hassoc, ← hpre, getD_append_length]; rfl
  have htake2 : List.take (p.length + 3) ([36, 36, L] ++ p ++ [c, 35, 35]) =
      [36, 36, L] ++ p := by
    rw [hassoc, ← hpre, List.take_left]
  have hdrop3 : List.drop 3 ([36, 36, L] ++ p ++ [c, 35, 35]) = p ++ [c, 35, 35] := by
    rfl
  have hdropT : List.drop (3 + L) ([36, 36, L] ++ p ++ [c, 35, 35]) = [] := by
    apply List.drop_eq_nil_of_le
    omega
  have harith2 : p.length + 3 - 3 = p.length := by omega
  have htakep : List.take p.length (p ++ [c, 35, 35]) = p := List.take_left p [c, 35, 35]
  simp only [hgetD, htake2, hdrop3, hdropT, harith2, htakep]
  have harith3 : 3 + L - 3 = L := by omega
  rw [harith3]

/-- Decoding the eleven-byte arm pick frame, whose declared length byte
`0x06` is shorter than the real frame, through the footer-recovery path:
as long as the footer pattern `0x23 0x23` does not occur before the real
footer, the recovery finds the real footer and the frame survives intact. -/
theorem extract_step_arm_frame (a b d e c : Nat)
    (h1 : ¬(a = 35 ∧ b = 35)) (h2 : ¬(b = 35 ∧ d = 35))
    (h3 : ¬(d = 35 ∧ e = 35)) (h5 : c ≠ 35) :
    extract_step [36, 36, 6, 4, a, b, d, e, c, 35, 35] =
      .frame { raw := [36, 36, 6, 4, a, b, d, e, c, 35, 35], group := 4,
               payload := [a, b, d, e], declared_length := 8,
               crc_ok := c == compute_crc [36, 36, 6, 4, a, b, d, e] } [] := by
  simp [extract_step, mk_frame, find_header, find_footer, find_footer_idx,
    h1, h2, h3, h5]

theorem mk_frame_shrinks (b : List Nat) (total : Nat) (hb : 1 ≤ b.length)
    (r : List Nat) (h : step_rest (mk_frame b total) = some r) :
    r.length < b.length := by
  unfold mk_frame at h
  simp only at h
  split_ifs at h with hci
  · simp [step_rest] at h
    subst h
    simp
    omega
  · simp [step_rest] at h
    subst h
    simp only [List.length_take] at hci
    simp
    omega

theorem extract_step_shrinks (buf r : List Nat)
    (h : step_rest (extract_step buf) = some r) : r.length < buf.length := by
  unfold extract_step at h
  split_ifs at h with h7
  · simp [step_rest] at h
  · split at h
    · simp [step_rest] at h
    · rename_i i hfh
      simp only at h
      have hble : (buf.drop i).length ≤ buf.length := by simp
      split_ifs at h with hb7 htot hlt hfoot
      · simp [step_rest] at h
      · simp [step_rest] at h
        subst h
        simp
        omega
      · simp [step_rest] at h
      · have hb1 : 1 ≤ (buf.drop i).length := by omega
        exact lt_of_lt_of_le (mk_frame_shrinks _ _ hb1 r h) hble
      · have hb1 : 1 ≤ (buf.drop i).length := by omega
        split at h
        · simp [step_rest] at h
        · split_ifs at h with hlt2
          · simp [step_rest] at h
          · exact lt_of_lt_of_le (mk_frame_shrinks _ _ hb1 r h) hble

theorem extract_go_fuel (fuel1 : Nat) (buf : List Nat) (fuel2 : Nat)
    (h1 : buf.length < fuel1) (h2 : buf.length < fuel2) :
    extract_go fuel1 buf = extract_go fuel2 buf := by
  induction fuel1 generalizing buf fuel2 with
  | zero => omega
  | succ k ih =>
    cases fuel2 with
    | zero => omega
    | succ m =>
      simp only [extract_go]
      cases hstep : extract_step buf with
      | done rest => rfl
      | drop rest =>
        have hs := extract_step_shrinks buf rest (by rw [hstep]; rfl)
        exact ih rest m (by omega) (by omega)
      | frame f rest =>
        have hs := extract_step_shrinks buf rest (by rw [hstep]; rfl)
        exact congrArg (f :: ·) (ih rest m (by omega) (by omega))

theorem extract_go_nil (fuel : Nat) : extract_go fuel [] = [] := by
  cases fuel with
  | zero => rfl
  | succ k => simp [extract_go, extract_step]

theorem extract_go_succ (fuel : Nat) (buf : List Nat) :
    extract_go (fuel + 1) buf =
      match extract_step buf with
      | .done _ => []
      | .drop rest => extract_go fuel rest
      | .frame f rest => f :: extract_go fuel rest := rfl

/-- Claim C3, counterexample: when the underlying serial write or port open
fails, `SharedSerialBus.request` re-raises after cancelling the pending
wait and `ActorLink._send_command` / `ArmLink.pick` have no handler, so the
exception propagates to the caller instead of a `false` return — the claim
that the call "never raises an exception to its caller, including when the
underlying serial write or port open fails" is false. -/
theorem C3_counterexample :
    actor_send_command 0x01 .sendFailure = .error () ∧
    arm_link_pick 240 270 .sendFailure = .error () :=
  ⟨rfl, rfl⟩

/-- Claim C3 (amended): every link command returns `true` iff the matched
ACK frame (group `0x04`, first payload byte `0xFF`) has a valid CRC,
returns `false` on timeout (no matching frame within `ack_timeout_ms`) or
when the matched ACK fails CRC validation, and raises only when the
underlying serial write or port open fails, in which case the exception
propagates to the caller. -/
theorem C3_amended :
    (∀ command : Nat,
      actor_send_command command .timeout = .ok false ∧
      actor_send_command command .sendFailure = .error () ∧
      ∀ f : DecodedFrame, actor_send_command command (.reply f) =
        .ok (actor_ack_predicate f && f.crc_ok)) ∧
    (∀ x_mm y_mm : Int,
      arm_link_pick x_mm y_mm .timeout = .ok false ∧
      arm_link_pick x_mm y_mm .sendFailure = .error () ∧
      ∀ f : DecodedFrame, arm_link_pick x_mm y_mm (.reply f) =
        .ok (arm_ack_predicate f && f.crc_ok)) := by
  constructor
  · intro command
    refine ⟨rfl, rfl, fun f => ?_⟩
    by_cases hp : actor_ack_predicate f <;>
      simp [actor_send_command, bus_request, hp]
  · intro x_mm y_mm
    refine ⟨rfl, rfl, fun f => ?_⟩
    by_cases hp : arm_ack_predicate f <;>
      simp [arm_link_pick, bus_request, hp]

/-- Claim C4, counterexample: for `(x_mm, y_mm) = (0x0023, 0x2300)` the
encoded bytes contain the footer pattern `0x23 0x23` inside the payload;
because the declared length byte is fixed at `0x06` (shorter than the real
frame), the decoder takes the footer-recovery path, truncates the frame at
that pattern and returns a single frame with an empty payload instead of
the coordinates. -/
theorem C4_counterexample :
    (extract_frames (build_arm_pick_command 0x23 0x2300)).map DecodedFrame.payload
      = [[]] ∧
    [[]] ≠ [[0x00, 0x23, 0x23, 0x00]] := by decide

/-- Claim C4 (amended): for every `(x_mm, y_mm) ∈ [0, 0xFFFF]²` such that
the footer pattern `0x23 0x23` does not occur among the consecutive
coordinate-byte pairs and the checksum byte is not `0x23`, feeding
`build_arm_pick_command x_mm y_mm` into `extract_frames` yields exactly one
CRC-valid frame whose payload carries the big-endian coordinate bytes, and
those bytes recompose to the original coordinates. -/
theorem C4_amended (n m : Nat) (hn : n ≤ 0xFFFF) (hm : m ≤ 0xFFFF)
    (h1 : ¬(n / 256 % 256 = 0x23 ∧ n % 256 = 0x23))
    (h2 : ¬(n % 256 = 0x23 ∧ m / 256 % 256 = 0x23))
    (h3 : ¬(m / 256 % 256 = 0x23 ∧ m % 256 = 0x23))
    (h4 : compute_crc [0x24, 0x24, 0x06, 0x04,
        n / 256 % 256, n % 256, m / 256 % 256, m % 256] ≠ 0x23) :
    extract_frames (build_arm_pick_command n m) =
      [{ raw := build_arm_pick_command n m
         group := ARM_GROUP_COMMAND
         payload := [n / 256 % 256, n % 256, m / 256 % 256, m % 256]
         declared_length := 8
         crc_ok := true }] ∧
    (n / 256 % 256) * 256 + n % 256 = n ∧
    (m / 256 % 256) * 256 + m % 256 = m := by
  have hx : (max 0 (min 0xFFFF (n : Int))).toNat = n := by omega
  have hy : (max 0 (min 0xFFFF (m : Int))).toNat = m := by omega
  have hmm : ∀ k : Nat, k % 256 % 256 = k % 256 := fun k => by omega
  have hbuild : build_arm_pick_command n m =
      [36, 36, 6, 4, n / 256 % 256, n % 256, m / 256 % 256, m % 256,
       compute_crc [36, 36, 6, 4, n / 256 % 256, n % 256, m / 256 % 256, m % 256],
       35, 35] := by
    unfold build_arm_pick_command encode
    rw [hx, hy]
    simp only [List.map_cons, List.map_nil, hmm, Option.getD]
    norm_num [ARM_GROUP_COMMAND]
  refine ⟨?_, by omega, by omega⟩
  rw [hbuild]
  have hstep := extract_step_arm_frame (n / 256 % 256) (n % 256) (m / 256 % 256)
    (m % 256)
    (compute_crc [36, 36, 6, 4, n / 256 % 256, n % 256, m / 256 % 256, m % 256])
    h1 h2 h3 h4
  show extract_go 12 _ = _
  rw [show (12 : Nat) = 11 + 1 from rfl, extract_go_succ, hstep]
  simp [extract_go_nil, ARM_GROUP_COMMAND]

/-- Witness for claim C4's amended theorem at the spec's scenario
coordinates `(240, 270)`. -/
theorem C4_witness :
    (240 : Nat) ≤ 0xFFFF ∧ (270 : Nat) ≤ 0xFFFF ∧
    (extract_frames (build_arm_pick_command 240 270) =
      [{ raw := build_arm_pick_command 240 270
         group := ARM_GROUP_COMMAND
         payload := [0, 240, 1, 14]
         declared_length := 8
         crc_ok := true }] ∧
    0 * 256 + 240 % 256 = 240 ∧ 1 * 256 + 270 % 256 = 270) := by
  refine ⟨by decide, by decide, ?_⟩
  exact C4_amended 240 270 (by decide) (by decide) (by decide) (by decide)
    (by decide) (by decide)

/-- Claim C5, counterexample: the single frame extracted from the scenario
buffer has `crc_ok = false`, not `true` as claimed — the recovered frame's
checksum domain `[0x24, 0x24, 0x05, 0x03, 0x00, 0x64]` sums to `0xB4`,
while the checksum byte in the buffer is `0xB5`. -/
theorem C5_counterexample :
    (extract_frames c5_buffer).map DecodedFrame.crc_ok = [false] := by decide

/-- Claim C5 (amended): `extract_frames` on the scenario buffer discards
the two leading bytes and returns exactly one decoded frame with group
`0x03` that `parse_actor_status` maps to `is_moving = false` and
`distance_cm = 100`, but that frame has `crc_ok = false`. -/
theorem C5_amended :
    extract_frames c5_buffer =
      [{ raw := [0x24, 0x24, 0x05, 0x03, 0x00, 0x64, 0xB5, 0x23, 0x23],
         group := 0x03, payload := [0x00, 0x64], declared_length := 6,
         crc_ok := false }] ∧
    (extract_frames c5_buffer).map parse_actor_status =
      [some { is_moving := false, distance_cm := some 100 }] := by decide

set_option maxRecDepth 4000 in
/-- Claim C6, counterexample: a 253-byte payload makes the default length
byte `payload_length + 3 = 256` wrap to `0x00`, so the decoder drops a byte,
loses the header and extracts no frame at all — the round trip fails for
this non-empty payload. -/
theorem C6_counterexample :
    extract_frames (encode (List.replicate 253 0) none) = [] := by decide

/-- Claim C6 (amended): for every non-empty payload byte sequence of at
most 252 bytes (so that the default length byte `payload_length + 3` fits
in one byte), extracting from exactly the encoded bytes yields one decoded
frame whose group is the first payload byte, whose payload is the remaining
bytes, and whose `crc_ok` flag is `true`. -/
theorem C6_amended (g : Nat) (rest : List Nat) (hg : g < 256)
    (hrest : ∀ b ∈ rest, b < 256) (hlen : rest.length + 4 ≤ 255) :
    extract_frames (encode (g :: rest) none) =
      [{ raw := encode (g :: rest) none, group := g, payload := rest,
         declared_length := rest.length + 4, crc_ok := true }] := by
  have hmap : (g :: rest).map (· % 256) = g :: rest :=
    map_mod256_eq_self _ (by
      intro b hb
      rcases List.mem_cons.mp hb with h | h
      · subst h; exact hg
      · exact hrest b h)
  have henc : encode (g :: rest) none =
      [36, 36, rest.length + 4] ++ (g :: rest) ++
        [compute_crc ([36, 36, rest.length + 4] ++ (g :: rest)), 35, 35] := by
    unfold encode
    simp only [hmap, Option.getD, List.length_cons]
    rw [Nat.mod_eq_of_lt (by omega)]
    simp
  rw [henc]
  have hL : rest.length + 4 = (g :: rest).length + 3 := by simp
  have hstep := extract_step_wellformed (rest.length + 4)
    (compute_crc ([36, 36, rest.length + 4] ++ (g :: rest))) (g :: rest)
    (by simp) hL
  have hlenbuf : ([36, 36, rest.length + 4] ++ (g :: rest) ++
      [compute_crc ([36, 36, rest.length + 4] ++ (g :: rest)), 35, 35]).length =
      (g :: rest).length + 6 := by simp
  unfold extract_frames
  rw [hlenbuf]
  rw [extract_go_succ, hstep]
  simp [extract_go_nil]

/-- Witness for claim C6's amended theorem on the well-formed actor status
payload `[0x03, 0x00, 0x64]`. -/
theorem C6_witness :
    (3 : Nat) < 256 ∧ (∀ b ∈ ([0, 100] : List Nat), b < 256) ∧
    ([0, 100] : List Nat).length + 4 ≤ 255 ∧
    extract_frames (encode (3 :: [0, 100]) none) =
      [{ raw := encode (3 :: [0, 100]) none, group := 3, payload := [0, 100],
         declared_length := 6, crc_ok := true }] :=
  ⟨by decide, by decide, by decide,
   C6_amended 3 [0, 100] (by decide) (by decide) (by decide)⟩

/-- Claim C7: `extract_frames` terminates on every input buffer — every
loop iteration either breaks out of the loop or hands the next iteration a
strictly shorter buffer (dropping at least one byte, or a decoded frame's
bytes), so `buffer.length` iterations always suffice: any fuel beyond the
buffer length yields the same result as `extract_frames`. -/
theorem C7_termination :
    (∀ (buf r : List Nat), step_rest (extract_step buf) = some r →
      r.length < buf.length) ∧
    (∀ (buf : List Nat) (fuel : Nat), buf.length < fuel →
      extract_go fuel buf = extract_frames buf) :=
  ⟨extract_step_shrinks, fun buf fuel h =>
    extract_go_fuel fuel buf (buf.length + 1) h (Nat.lt_succ_self _)⟩

/-- Witness for claim C7 at concrete buffers: a dropping iteration shrinks
the buffer, and extra fuel does not change the extraction result. -/
theorem C7_witness :
    ([36, 0, 0, 0, 0, 0] : List Nat).length <
      ([36, 36, 0, 0, 0, 0, 0] : List Nat).length ∧
    extract_go 9 [1, 2, 3] = extract_frames [1, 2, 3] :=
  ⟨C7_termination.1 [36, 36, 0, 0, 0, 0, 0] [36, 0, 0, 0, 0, 0] (by decide),
   C7_termination.2 [1, 2, 3] 9 (by decide)⟩

theorem qadd_eq (a b : ℚ) : qadd a b = a + b := by
  rw [qadd]
  conv_rhs => rw [← Rat.num_divInt_den a, ← Rat.num_divInt_den b]
  rw [Rat.divInt_add_divInt _ _ (Int.natCast_ne_zero.mpr a.den_nz)
    (Int.natCast_ne_zero.mpr b.den_nz)]

theorem qsub_eq (a b : ℚ) : qsub a b = a - b := by
  rw [qsub]
  conv_rhs => rw [← Rat.num_divInt_den a, ← Rat.num_divInt_den b]
  rw [Rat.divInt_sub_divInt _ _ (Int.natCast_ne_zero.mpr a.den_nz)
    (Int.natCast_ne_zero.mpr b.den_nz)]

theorem qmul_eq (a b : ℚ) : qmul a b = a * b := by
  rw [qmul]
  conv_rhs => rw [← Rat.num_divInt_den a, ← Rat.num_divInt_den b]
  rw [Rat.divInt_mul_divInt']

theorem qdiv_eq (a b : ℚ) : qdiv a b = a / b := by
  rw [qdiv]
  conv_rhs => rw [← Rat.num_divInt_den a, ← Rat.num_divInt_den b]
  rw [Rat.divInt_div_divInt]

theorem qabs_eq (a : ℚ) : qabs a = |a| := by
  rw [qabs]
  rcases le_or_lt 0 a with h | h
  · rw [abs_of_nonneg h, abs_of_nonneg (Rat.num_nonneg.mpr h), Rat.num_divInt_den]
  · have hn : a.num < 0 := Rat.num_neg.mpr h
    rw [abs_of_neg h, abs_of_neg hn, ← Rat.neg_divInt, Rat.num_divInt_den]

theorem qmax_eq (a b : ℚ) : qmax a b = max a b := by
  rw [qmax, max_def]

/-- Claim C8: `should_rotate_due_to_obstacle` (a pure read of the context)
returns `true` iff the latest actor status is present, its `distance_cm`
field is present, the inferred actor motion is not `TURNING`, and
`distance_cm ≤ distance_stop_threshold_cm`. -/
theorem C8_should_rotate_iff (w : ControlState) :
    should_rotate_due_to_obstacle w = true ↔
      ∃ status : ActorStatus, w.latest_actor_status = some status ∧
        ∃ d : Nat, status.distance_cm = some d ∧
          w.actor_motion ≠ .TURNING ∧
          (d : ℚ) ≤ w.behaviour.distance_stop_threshold_cm := by
  unfold should_rotate_due_to_obstacle
  cases hs : w.latest_actor_status with
  | none => simp
  | some status =>
    cases hd : status.distance_cm with
    | none => simp [hd]
    | some d =>
      simp only [hd]
      split_ifs with ht
      · simp [ht]
      · simp [ht, hd, decide_eq_true_iff]

/-- Master lemma for the `command_next_pick` pop loop: the behaviour
configuration is untouched, attempt counters never decrease, the trace only
grows, every `arm.pick` issued during the call is for a target that was
still under the attempt budget when the call started, and counters already
at or above the budget are left exactly as they were. -/
theorem go_master (q : List Detection) (w : ControlState) :
    (command_next_pick_go q w).2.behaviour = w.behaviour ∧
    (∀ id, w.pick_attempts id ≤ (command_next_pick_go q w).2.pick_attempts id) ∧
    (∃ tr, (command_next_pick_go q w).2.trace = w.trace ++ tr ∧
      ∀ id x y, IssuedCmd.armPick id x y ∈ tr →
        ¬ w.behaviour.max_arm_pick_attempts ≤ w.pick_attempts id) ∧
    (∀ id, w.behaviour.max_arm_pick_attempts ≤ w.pick_attempts id →
      (command_next_pick_go q w).2.pick_attempts id = w.pick_attempts id) := by
  induction q generalizing w with
  | nil =>
    refine ⟨rfl, fun id => le_refl _, ⟨[], by simp [command_next_pick_go], ?_⟩,
      fun id _ => rfl⟩
    intro id x y h
    simp at h
  | cons t rest ih =>
    simp only [command_next_pick_go, issue_arm_pick]
    split_ifs with hskip hok
    · obtain ⟨hb, hmono, ⟨tr, htr, hsafe⟩, heq⟩ := ih { w with pick_queue := rest }
      exact ⟨hb, hmono, ⟨tr, htr, hsafe⟩, heq⟩
    · refine ⟨rfl, fun id => ?_, ⟨[_], rfl, ?_⟩, fun id hmax => ?_⟩
      · by_cases hid : id = t.id <;> simp [hid]
      · intro id x y h hmax
        simp at h
        exact hskip (h.1 ▸ hmax)
      · show (if id = t.id then w.pick_attempts t.id + 1 else w.pick_attempts id) =
          w.pick_attempts id
        split_ifs with hid
        · rw [hid] at hmax
          exact absurd hmax hskip
        · rfl
    · obtain ⟨hb, hmono, ⟨tr, htr, hsafe⟩, heq⟩ := ih _
      refine ⟨hb, fun id => le_trans ?_ (hmono id),
        ⟨.armPick t.id (map_detection_to_mm w t).1 (map_detection_to_mm w t).2 :: tr,
         ?_, ?_⟩, fun id hmax => ?_⟩
      · show w.pick_attempts id ≤
          (if id = t.id then w.pick_attempts t.id + 1 else w.pick_attempts id)
        split_ifs with hid
        · rw [hid]; omega
        · exact le_refl _
      · rw [htr]
        show w.trace ++
            [IssuedCmd.armPick t.id (map_detection_to_mm w t).1
              (map_detection_to_mm w t).2] ++ tr = _
        simp
      · intro id x y h hmax
        simp at h
        rcases h with h | h
        · exact hskip (h.1 ▸ hmax)
        · refine hsafe id x y h ?_
          show w.behaviour.max_arm_pick_attempts ≤
            (if id = t.id then w.pick_attempts t.id + 1 else w.pick_attempts id)
          split_ifs with hid
          · rw [hid] at hmax
            omega
          · exact hmax
      · have hid : ¬ id = t.id := fun hid => hskip (hid ▸ hmax)
        have h1 := heq id (show _ ≤
          (if id = t.id then w.pick_attempts t.id + 1 else w.pick_attempts id) from by
            rw [if_neg hid]; exact hmax)
        rw [h1]
        show (if id = t.id then w.pick_attempts t.id + 1 else w.pick_attempts id) =
          w.pick_attempts id
        rw [if_neg hid]

/-- Claim C9: for the target at the front of the pick queue,
`command_next_pick` issues `arm.pick` for it (and increments its attempt
counter) exactly when its recorded attempt count is below
`max_arm_pick_attempts`; when the count has reached the budget the target
is popped and discarded without any `arm.pick` for it, its counter
unchanged. -/
theorem C9_attempt_budget (w : ControlState) (t : Detection) (rest : List Detection)
    (hq : w.pick_queue = t :: rest) :
    (w.pick_attempts t.id < w.behaviour.max_arm_pick_attempts →
      (∃ tr, (command_next_pick w).2.trace =
          w.trace ++ (IssuedCmd.armPick t.id (map_detection_to_mm w t).1
            (map_detection_to_mm w t).2 :: tr)) ∧
      w.pick_attempts t.id + 1 ≤ (command_next_pick w).2.pick_attempts t.id) ∧
    (w.behaviour.max_arm_pick_attempts ≤ w.pick_attempts t.id →
      (∀ x y, IssuedCmd.armPick t.id x y ∉
        (command_next_pick w).2.trace.drop w.trace.length) ∧
      (command_next_pick w).2.pick_attempts t.id = w.pick_attempts t.id) := by
  unfold command_next_pick
  rw [hq, if_neg (by simp)]
  constructor
  · intro hlt
    simp only [command_next_pick_go, issue_arm_pick]
    rw [if_neg (show ¬ w.behaviour.max_arm_pick_attempts ≤ w.pick_attempts t.id by
      omega)]
    split_ifs with hok
    · refine ⟨⟨[], ?_⟩, ?_⟩
      · show w.trace ++ [IssuedCmd.armPick t.id (map_detection_to_mm w t).1
            (map_detection_to_mm w t).2] = _
        simp
      · show w.pick_attempts t.id + 1 ≤
          (if t.id = t.id then w.pick_attempts t.id + 1 else w.pick_attempts t.id)
        rw [if_pos rfl]
    · obtain ⟨hb, hmono, ⟨tr, htr, hsafe⟩, heq⟩ := go_master rest _
      refine ⟨⟨tr, ?_⟩, ?_⟩
      · rw [htr]
        show w.trace ++ [IssuedCmd.armPick t.id (map_detection_to_mm w t).1
            (map_detection_to_mm w t).2] ++ tr = _
        simp
      · refine le_trans ?_ (hmono t.id)
        show w.pick_attempts t.id + 1 ≤
          (if t.id = t.id then w.pick_attempts t.id + 1 else w.pick_attempts t.id)
        rw [if_pos rfl]
  · intro hmax
    simp only [command_next_pick_go]
    rw [if_pos (show ({ w with pick_queue := rest } :
        ControlState).behaviour.max_arm_pick_attempts ≤
        ({ w with pick_queue := rest } : ControlState).pick_attempts t.id from hmax)]
    obtain ⟨hb, hmono, ⟨tr, htr, hsafe⟩, heq⟩ :=
      go_master rest { w with pick_queue := rest }
    constructor
    · intro x y hmem
      rw [htr] at hmem
      have hmem2 : IssuedCmd.armPick t.id x y ∈
          List.drop w.trace.length (w.trace ++ tr) := hmem
      rw [List.drop_left] at hmem2
      exact hsafe t.id x y hmem2 hmax
    · exact heq t.id hmax

/-- Witness for claim C9 on a queue holding the scenario egg. -/
theorem C9_witness :
    pick_ready.pick_queue = scenario_egg :: [] ∧
    ((pick_ready.pick_attempts scenario_egg.id <
        pick_ready.behaviour.max_arm_pick_attempts →
      (∃ tr, (command_next_pick pick_ready).2.trace =
          pick_ready.trace ++ (IssuedCmd.armPick scenario_egg.id
            (map_detection_to_mm pick_ready scenario_egg).1
            (map_detection_to_mm pick_ready scenario_egg).2 :: tr)) ∧
      pick_ready.pick_attempts scenario_egg.id + 1 ≤
        (command_next_pick pick_ready).2.pick_attempts scenario_egg.id) ∧
    (pick_ready.behaviour.max_arm_pick_attempts ≤
        pick_ready.pick_attempts scenario_egg.id →
      (∀ x y, IssuedCmd.armPick scenario_egg.id x y ∉
        (command_next_pick pick_ready).2.trace.drop pick_ready.trace.length) ∧
      (command_next_pick pick_ready).2.pick_attempts scenario_egg.id =
        pick_ready.pick_attempts scenario_egg.id)) :=
  ⟨rfl, C9_attempt_budget pick_ready scenario_egg [] rfl⟩

theorem nfp_refl (tid : Nat) (w : ControlState) : NoFurtherPick tid w w :=
  ⟨rfl, le_refl _, [], by simp, by simp⟩

theorem nfp_trans {tid : Nat} {w1 w2 w3 : ControlState}
    (h12 : NoFurtherPick tid w1 w2) (h23 : NoFurtherPick tid w2 w3) :
    NoFurtherPick tid w1 w3 := by
  obtain ⟨hb1, ha1, tr1, ht1, hn1⟩ := h12
  obtain ⟨hb2, ha2, tr2, ht2, hn2⟩ := h23
  refine ⟨hb2.trans hb1, ha1.trans ha2, tr1 ++ tr2,
    by rw [ht2, ht1, List.append_assoc], ?_⟩
  intro x y hxy
  rcases List.mem_append.mp hxy with h | h
  · exact hn1 x y h
  · exact hn2 x y h

theorem nfp_of_fields {tid : Nat} {w w' : ControlState}
    (hb : w'.behaviour = w.behaviour) (ha : w'.pick_attempts = w.pick_attempts)
    (ht : w'.trace = w.trace) : NoFurtherPick tid w w' :=
  ⟨hb, by rw [ha], [], by simp [ht], by simp⟩

theorem nfp_inv_transfer {tid : Nat} {w w' : ControlState}
    (h : NoFurtherPick tid w w')
    (hinv : w.behaviour.max_arm_pick_attempts ≤ w.pick_attempts tid) :
    w'.behaviour.max_arm_pick_attempts ≤ w'.pick_attempts tid := by
  obtain ⟨hb, ha, _⟩ := h
  rw [hb]
  exact hinv.trans ha

theorem nfp_issue_actor (tid : Nat) (c : ActorCmd) (w : ControlState) :
    NoFurtherPick tid w (issue_actor c w).2 :=
  ⟨rfl, le_refl _, [.actor c], rfl, by intro x y h; simp at h⟩

theorem nfp_update_detections (tid : Nat) (dets : List Detection)
    (frame : FrameData) (w : ControlState) :
    NoFurtherPick tid w (update_detections dets frame w) :=
  nfp_of_fields rfl rfl rfl

theorem nfp_update_actor_status (tid : Nat) (st : ActorStatus) (w : ControlState) :
    NoFurtherPick tid w (update_actor_status st w) := by
  simp only [update_actor_status]
  split_ifs <;> exact nfp_of_fields rfl rfl rfl

theorem nfp_update_arm_status (tid : Nat) (st : ArmStatus) (w : ControlState) :
    NoFurtherPick tid w (update_arm_status st w) := by
  simp only [update_arm_status]
  split_ifs <;> exact nfp_of_fields rfl rfl rfl

theorem nfp_prepare_pick_queue (tid : Nat) (w : ControlState) :
    NoFurtherPick tid w (prepare_pick_queue w).2 := by
  simp only [prepare_pick_queue]
  split_ifs
  · exact nfp_of_fields rfl rfl rfl
  · cases w.current_frame <;> exact nfp_of_fields rfl rfl rfl

theorem nfp_refresh_pick_queue (tid : Nat) (w : ControlState) :
    NoFurtherPick tid w (refresh_pick_queue w) := by
  simp only [refresh_pick_queue]
  split_ifs
  · exact nfp_prepare_pick_queue tid w
  · exact nfp_refl tid w

theorem nfp_clear_pick_cycle (tid : Nat) (w : ControlState) :
    NoFurtherPick tid w (clear_pick_cycle w) :=
  nfp_of_fields rfl rfl rfl

theorem nfp_complete_current_pick (tid : Nat) (w : ControlState) :
    NoFurtherPick tid w (complete_current_pick w) :=
  nfp_of_fields rfl rfl rfl

theorem nfp_ensure_actor_stopped (tid : Nat) (w : ControlState) :
    NoFurtherPick tid w (ensure_actor_stopped w).2 := by
  simp only [ensure_actor_stopped]
  split_ifs
  · exact nfp_refl tid w
  · exact nfp_trans (nfp_issue_actor tid .STOP w) (nfp_of_fields rfl rfl rfl)
  · exact nfp_issue_actor tid .STOP w

theorem nfp_command_move_forward (tid : Nat) (w : ControlState) :
    NoFurtherPick tid w (command_move_forward w).2 := by
  simp only [command_move_forward]
  split_ifs
  · exact nfp_refl tid w
  · exact nfp_trans (nfp_issue_actor tid .MOVE_FORWARD w) (nfp_of_fields rfl rfl rfl)
  · exact nfp_issue_actor tid .MOVE_FORWARD w

theorem nfp_command_turn (tid : Nat) (w : ControlState) :
    NoFurtherPick tid w (command_turn w).2 := by
  simp only [command_turn]
  split_ifs
  · exact nfp_trans (nfp_issue_actor tid .TURN_90 w) (nfp_of_fields rfl rfl rfl)
  · exact nfp_issue_actor tid .TURN_90 w

theorem nfp_enter_scan_and_move (tid : Nat) (w : ControlState) :
    NoFurtherPick tid w (enter_scan_and_move w) :=
  nfp_trans (nfp_clear_pick_cycle tid w) (nfp_command_move_forward tid _)

theorem nfp_enter_scan_only (tid : Nat) (w : ControlState) :
    NoFurtherPick tid w (enter_scan_only w) :=
  nfp_ensure_actor_stopped tid w

theorem nfp_enter_move_only (tid : Nat) (w : ControlState) :
    NoFurtherPick tid w (enter_move_only w) :=
  nfp_command_move_forward tid w

theorem nfp_fsm_set (tid : Nat) (w : ControlState) (s : FsmState) :
    NoFurtherPick tid w { w with fsm := s } :=
  nfp_of_fields rfl rfl rfl

theorem nfp_enter_turn_first (tid : Nat) (w : ControlState) :
    NoFurtherPick tid w (enter_turn_first w) := by
  simp only [enter_turn_first]
  split_ifs
  · exact nfp_command_turn tid w
  · exact nfp_trans (nfp_command_turn tid w)
      (nfp_trans (nfp_fsm_set tid _ _) (nfp_enter_scan_only tid _))

theorem nfp_enter_turn_second (tid : Nat) (w : ControlState) :
    NoFurtherPick tid w (enter_turn_second w) := by
  simp only [enter_turn_second]
  split_ifs
  · exact nfp_command_turn tid w
  · exact nfp_trans (nfp_command_turn tid w)
      (nfp_trans (nfp_fsm_set tid _ _) (nfp_enter_scan_and_move tid _))

theorem nfp_finish_picking (tid : Nat) (w : ControlState) :
    NoFurtherPick tid w (finish_picking w) :=
  nfp_trans (nfp_clear_pick_cycle tid w)
    (nfp_trans (nfp_fsm_set tid _ _) (nfp_enter_scan_and_move tid _))

theorem nfp_command_next_pick (tid : Nat) (w : ControlState)
    (hinv : w.behaviour.max_arm_pick_attempts ≤ w.pick_attempts tid) :
    NoFurtherPick tid w (command_next_pick w).2 := by
  simp only [command_next_pick]
  split_ifs
  · exact nfp_refl tid w
  · obtain ⟨hb, hmono, ⟨tr, htr, hsafe⟩, _⟩ := go_master w.pick_queue w
    exact ⟨hb, hmono tid, tr, htr, fun x y hmem => hsafe tid x y hmem hinv⟩

theorem nfp_enter_pick_up_egg (tid : Nat) (w : ControlState)
    (hinv : w.behaviour.max_arm_pick_attempts ≤ w.pick_attempts tid) :
    NoFurtherPick tid w (enter_pick_up_egg w) := by
  have h1 := nfp_prepare_pick_queue tid w
  have h2 := nfp_command_next_pick tid (prepare_pick_queue w).2
    (nfp_inv_transfer h1 hinv)
  simp only [enter_pick_up_egg]
  split_ifs
  · exact nfp_trans h1 (nfp_finish_picking tid _)
  · exact nfp_trans h1 (nfp_trans h2 (nfp_finish_picking tid _))
  · exact nfp_trans h1 h2

theorem nfp_commence_pick_attempt (tid : Nat) (w : ControlState)
    (hinv : w.behaviour.max_arm_pick_attempts ≤ w.pick_attempts tid) :
    NoFurtherPick tid w (commence_pick_attempt w) := by
  simp only [commence_pick_attempt]
  split_ifs
  · exact nfp_trans (nfp_fsm_set tid w _) (nfp_enter_pick_up_egg tid _
      (nfp_inv_transfer (nfp_fsm_set tid w _) hinv))
  · exact nfp_of_fields rfl rfl rfl

theorem nfp_handle_detection (tid : Nat) (dets : List Detection)
    (frame : FrameData) (w : ControlState)
    (hinv : w.behaviour.max_arm_pick_attempts ≤ w.pick_attempts tid) :
    NoFurtherPick tid w (handle_detection dets frame w) := by
  have h0 := nfp_update_detections tid dets frame w
  have hinv0 := nfp_inv_transfer h0 hinv
  have hens := nfp_ensure_actor_stopped tid (update_detections dets frame w)
  have hcom := nfp_commence_pick_attempt tid
    (ensure_actor_stopped (update_detections dets frame w)).2
    (nfp_inv_transfer hens hinv0)
  simp only [handle_detection]
  split_ifs
  all_goals first
    | exact nfp_trans h0 (nfp_finish_picking tid _)
    | exact nfp_trans h0 (nfp_refresh_pick_queue tid _)
    | exact h0
    | exact nfp_trans h0 (nfp_trans hens hcom)
    | exact nfp_trans h0 hens

theorem nfp_handle_actor_status (tid : Nat) (st : ActorStatus) (w : ControlState) :
    NoFurtherPick tid w (handle_actor_status st w) := by
  have h0 := nfp_update_actor_status tid st w
  simp only [handle_actor_status]
  split_ifs
  all_goals first
    | exact nfp_trans h0 (nfp_trans (nfp_fsm_set tid _ _) (nfp_enter_scan_only tid _))
    | exact nfp_trans h0
        (nfp_trans (nfp_fsm_set tid _ _) (nfp_enter_scan_and_move tid _))
    | exact nfp_trans h0 (nfp_trans (nfp_ensure_actor_stopped tid _)
        (nfp_trans (nfp_fsm_set tid _ _) (nfp_enter_turn_first tid _)))
    | exact nfp_trans h0 (nfp_ensure_actor_stopped tid _)
    | exact h0

theorem nfp_handle_arm_status (tid : Nat) (st : ArmStatus) (w : ControlState)
    (hinv : w.behaviour.max_arm_pick_attempts ≤ w.pick_attempts tid) :
    NoFurtherPick tid w (handle_arm_status st w) := by
  have h0 := nfp_update_arm_status tid st w
  have hmidT := nfp_trans h0 (nfp_complete_current_pick tid (update_arm_status st w))
  have hcnpT := nfp_command_next_pick tid
    (complete_current_pick (update_arm_status st w)) (nfp_inv_transfer hmidT hinv)
  have hcnpF := nfp_command_next_pick tid (update_arm_status st w)
    (nfp_inv_transfer h0 hinv)
  have hT := nfp_trans hmidT hcnpT
  have hF := nfp_trans h0 hcnpF
  simp only [handle_arm_status]
  split_ifs
  all_goals first
    | exact h0
    | exact hT
    | exact hF
    | exact nfp_trans hT (nfp_finish_picking tid _)
    | exact nfp_trans hF (nfp_finish_picking tid _)

theorem nfp_handle_timer (tid : Nat) (tmr : TimerId) (w : ControlState) :
    NoFurtherPick tid w (handle_timer tmr w) := by
  simp only [handle_timer]
  split_ifs
  · exact nfp_trans (nfp_fsm_set tid _ _) (nfp_enter_move_only tid _)
  · exact nfp_trans (nfp_ensure_actor_stopped tid _)
      (nfp_trans (nfp_fsm_set tid _ _) (nfp_enter_turn_second tid _))
  · exact nfp_refl tid w

theorem nfp_dispatch (tid : Nat) (e : ControlEvent) (w : ControlState)
    (hinv : w.behaviour.max_arm_pick_attempts ≤ w.pick_attempts tid) :
    NoFurtherPick tid w (dispatch e w) := by
  cases e with
  | detection dets frame => exact nfp_handle_detection tid dets frame w hinv
  | actor_status st => exact nfp_handle_actor_status tid st w
  | arm_status st => exact nfp_handle_arm_status tid st w hinv
  | timer tmr =>
    cases tmr with
    | ACTOR_STATUS => exact nfp_refl tid w
    | ARM_STATUS => exact nfp_refl tid w
    | SCAN_ONLY_TIMEOUT => exact nfp_handle_timer tid _ w
    | MOVE_ONLY_COUNTDOWN => exact nfp_handle_timer tid _ w
    | TURN_CHECK => exact nfp_handle_timer tid _ w

theorem nfp_run_events (tid : Nat) (es : List ControlEvent) (w : ControlState)
    (hinv : w.behaviour.max_arm_pick_attempts ≤ w.pick_attempts tid) :
    NoFurtherPick tid w (run_events es w) := by
  induction es generalizing w with
  | nil => exact nfp_refl tid w
  | cons e es ih =>
    have h1 := nfp_dispatch tid e w hinv
    exact nfp_trans h1 (ih (dispatch e w) (nfp_inv_transfer h1 hinv))

/-- Claim C10 (implicit): per-target pick attempt counters are never reset.
`clear_pick_cycle` (run on every exit from PickUpEgg) clears the pick
queue, current target and waiting flag but leaves the attempt map
untouched, and for every target id whose attempt count has reached
`max_arm_pick_attempts`, no `arm.pick` for that id is ever issued again by
any subsequent event dispatch, across all later PickUpEgg cycles. -/
theorem C10_attempts_never_reset (tid : Nat) (w : ControlState)
    (hmax : w.behaviour.max_arm_pick_attempts ≤ w.pick_attempts tid)
    (es : List ControlEvent) :
    ((clear_pick_cycle w).pick_attempts = w.pick_attempts ∧
     (clear_pick_cycle w).pick_queue = [] ∧
     (clear_pick_cycle w).current_target = none ∧
     (clear_pick_cycle w).waiting_for_arm = false) ∧
    (∃ tr, (run_events es w).trace = w.trace ++ tr ∧
      ∀ x y, IssuedCmd.armPick tid x y ∉ tr) ∧
    w.behaviour.max_arm_pick_attempts ≤ (run_events es w).pick_attempts tid := by
  obtain ⟨hb, ha, tr, htr, hn⟩ := nfp_run_events tid es w hmax
  exact ⟨⟨rfl, rfl, rfl, rfl⟩, ⟨tr, htr, hn⟩, hmax.trans ha⟩

/-- Witness for claim C10: target id 7 has exhausted its budget; a
subsequent arm-status dispatch issues no pick for it. -/
theorem C10_witness :
    budget_spent.behaviour.max_arm_pick_attempts ≤ budget_spent.pick_attempts 7 ∧
    (((clear_pick_cycle budget_spent).pick_attempts = budget_spent.pick_attempts ∧
      (clear_pick_cycle budget_spent).pick_queue = [] ∧
      (clear_pick_cycle budget_spent).current_target = none ∧
      (clear_pick_cycle budget_spent).waiting_for_arm = false) ∧
    (∃ tr, (run_events [.arm_status { is_busy := false }] budget_spent).trace =
        budget_spent.trace ++ tr ∧
      ∀ x y, IssuedCmd.armPick 7 x y ∉ tr) ∧
    budget_spent.behaviour.max_arm_pick_attempts ≤
      (run_events [.arm_status { is_busy := false }] budget_spent).pick_attempts 7) :=
  ⟨by decide, C10_attempts_never_reset 7 budget_spent (by decide)
    [.arm_status { is_busy := false }]⟩

theorem update_actor_status_trace (st : ActorStatus) (w : ControlState) :
    (update_actor_status st w).trace = w.trace ∧
    (update_actor_status st w).fsm = w.fsm := by
  simp only [update_actor_status]
  split_ifs <;> exact ⟨rfl, rfl⟩

theorem ensure_actor_stopped_trace (w : ControlState) :
    (ensure_actor_stopped w).2.trace = w.trace ∨
    (ensure_actor_stopped w).2.trace = w.trace ++ [.actor .STOP] := by
  simp only [ensure_actor_stopped]
  split_ifs
  · exact Or.inl rfl
  · exact Or.inr rfl
  · exact Or.inr rfl

theorem command_turn_trace (w : ControlState) :
    (command_turn w).2.trace = w.trace ++ [.actor .TURN_90] := by
  simp only [command_turn]
  split_ifs <;> rfl

theorem enter_turn_first_trace (w : ControlState) :
    ∃ tr, (enter_turn_first w).trace = w.trace ++ tr ∧
      IssuedCmd.actor .MOVE_FORWARD ∉ tr := by
  simp only [enter_turn_first]
  split_ifs
  · exact ⟨[.actor .TURN_90], command_turn_trace w, by simp⟩
  · simp only [enter_scan_only]
    rcases ensure_actor_stopped_trace
        ({ (command_turn w).2 with fsm := .scan_only }) with h | h
    · refine ⟨[.actor .TURN_90], ?_, by simp⟩
      rw [h]
      show (command_turn w).2.trace = _
      exact command_turn_trace w
    · refine ⟨[.actor .TURN_90, .actor .STOP], ?_, by simp⟩
      rw [h]
      show (command_turn w).2.trace ++ [.actor .STOP] = _
      rw [command_turn_trace w]
      simp

/-- Claim C1 (amended): while the FSM is in ScanAndMove, receiving an actor
status whose recorded value triggers the obstacle predicate never issues
MOVE_FORWARD during that dispatch: the handler only stops and turns.  (The
unrestricted claim over all states is refuted by `C1_counterexample`: the
MoveOnly entry hook issues MOVE_FORWARD without consulting the latest
status.) -/
theorem C1_amended (w : ControlState) (st : ActorStatus)
    (hfsm : w.fsm = .scan_and_move)
    (hrot : should_rotate_due_to_obstacle (update_actor_status st w) = true) :
    ∃ tr, (handle_actor_status st w).trace = w.trace ++ tr ∧
      IssuedCmd.actor .MOVE_FORWARD ∉ tr := by
  obtain ⟨htr0, hfsm0⟩ := update_actor_status_trace st w
  have hn1 : ¬((update_actor_status st w).fsm = .turn_first ∧
      st.is_moving = false) := by
    rintro ⟨h1, -⟩
    rw [hfsm0, hfsm] at h1
    exact absurd h1 (by decide)
  have hn2 : ¬((update_actor_status st w).fsm = .turn_second ∧
      st.is_moving = false) := by
    rintro ⟨h1, -⟩
    rw [hfsm0, hfsm] at h1
    exact absurd h1 (by decide)
  have hp3 : (update_actor_status st w).fsm = .scan_and_move ∧
      should_rotate_due_to_obstacle (update_actor_status st w) = true :=
    ⟨hfsm0.trans hfsm, hrot⟩
  simp only [handle_actor_status]
  rw [if_neg hn1, if_neg hn2, if_pos hp3]
  split_ifs
  · rcases ensure_actor_stopped_trace (update_actor_status st w) with h | h
    · exact ⟨[], by rw [h, htr0]; simp, by simp⟩
    · exact ⟨[.actor .STOP], by rw [h, htr0], by simp⟩
  · obtain ⟨tr, htr1, hmem⟩ := enter_turn_first_trace
      ({ (ensure_actor_stopped (update_actor_status st w)).2 with fsm := .turn_first })
    rcases ensure_actor_stopped_trace (update_actor_status st w) with h | h
    · refine ⟨tr, ?_, hmem⟩
      rw [htr1]
      show (ensure_actor_stopped (update_actor_status st w)).2.trace ++ tr = _
      rw [h, htr0]
    · refine ⟨.actor .STOP :: tr, ?_, ?_⟩
      · rw [htr1]
        show (ensure_actor_stopped (update_actor_status st w)).2.trace ++ tr = _
        rw [h, htr0]
        simp
      · intro hc
        rcases List.mem_cons.mp hc with hc | hc
        · simp at hc
        · exact hmem hc

/-- Counterexample to claim C1: after a patrol start, an obstacle report
(moving, 25 cm) puts the FSM in ScanOnly via TurnFirst, and a second
status (stopped, 25 cm) keeps the obstacle recorded.  The SCAN_ONLY_TIMEOUT
timer then enters MoveOnly, whose entry hook issues MOVE_FORWARD even
though the most recent actor status still reports distance 25 ≤ the 30 cm
stop threshold. -/
theorem C1_counterexample :
    obstacle_run.fsm = .scan_only ∧
    obstacle_run.latest_actor_status =
      some { is_moving := false, distance_cm := some 25 } ∧
    (25 : ℚ) ≤ obstacle_run.behaviour.distance_stop_threshold_cm ∧
    (dispatch (.timer .SCAN_ONLY_TIMEOUT) obstacle_run).latest_actor_status =
      obstacle_run.latest_actor_status ∧
    (dispatch (.timer .SCAN_ONLY_TIMEOUT) obstacle_run).trace =
      obstacle_run.trace ++ [.actor .MOVE_FORWARD] := by decide

/-- Witness for claim C1: a concrete ScanAndMove state receiving an
obstacle status issues no MOVE_FORWARD. -/
theorem C1_witness :
    patrol_start.fsm = .scan_and_move ∧
    should_rotate_due_to_obstacle (update_actor_status
      { is_moving := true, distance_cm := some 25 } patrol_start) = true ∧
    ∃ tr, (handle_actor_status { is_moving := true, distance_cm := some 25 }
        patrol_start).trace = patrol_start.trace ++ tr ∧
      IssuedCmd.actor .MOVE_FORWARD ∉ tr :=
  ⟨by decide, by decide,
   C1_amended patrol_start { is_moving := true, distance_cm := some 25 }
     (by decide) (by decide)⟩

theorem ensure_actor_stopped_fields (w : ControlState) :
    (ensure_actor_stopped w).2.fsm = w.fsm ∧
    (ensure_actor_stopped w).2.invalid_transitions = w.invalid_transitions := by
  simp only [ensure_actor_stopped]
  split_ifs <;> exact ⟨rfl, rfl⟩

/-- Claim C2 (amended): dispatching a detection while the FSM is in
TurnFirst or TurnSecond leaves the FSM state unchanged, but when pick
candidates are present and the actor is confirmed stopped the handler
does attempt the commence_pick transition, which is undefined from the
turning states: the attempt is caught by the engine and recorded as an
invalid transition (counter incremented by one).  (The original claim
that the attempt never happens is refuted by `C2_counterexample`.) -/
theorem C2_amended (dets : List Detection) (frame : FrameData) (w : ControlState)
    (hfsm : w.fsm = .turn_first ∨ w.fsm = .turn_second) :
    (handle_detection dets frame w).fsm = w.fsm ∧
    ((handle_detection dets frame w).invalid_transitions = w.invalid_transitions ∨
     (handle_detection dets frame w).invalid_transitions =
       w.invalid_transitions + 1) := by
  simp only [handle_detection]
  have hnp : ¬ (update_detections dets frame w).fsm = .pick_up_egg := by
    show ¬ w.fsm = .pick_up_egg
    rcases hfsm with h | h <;> rw [h] <;> decide
  rw [if_neg hnp]
  split_ifs with hcand hstop
  · exact ⟨rfl, Or.inl rfl⟩
  · obtain ⟨h1, h2⟩ := ensure_actor_stopped_fields (update_detections dets frame w)
    exact ⟨h1, Or.inl h2⟩
  · obtain ⟨h1, h2⟩ := ensure_actor_stopped_fields (update_detections dets frame w)
    simp only [commence_pick_attempt]
    rw [if_neg (by
      rw [h1]
      show ¬ (w.fsm = .scan_and_move ∨ w.fsm = .scan_only ∨ w.fsm = .move_only)
      rcases hfsm with h | h <;> rw [h] <;> decide)]
    refine ⟨h1, Or.inr ?_⟩
    show (ensure_actor_stopped (update_detections dets frame w)).2.invalid_transitions
        + 1 = _
    rw [h2]
    rfl

/-- Counterexample to claim C2: a detection with a pick candidate
dispatched while the FSM is in TurnFirst does attempt the commence_pick
transition; the attempt is invalid (TransitionNotAllowed caught by the
engine), so the invalid-transition counter increments while the FSM stays
in TurnFirst. -/
theorem C2_counterexample :
    turning_state.fsm = .turn_first ∧
    (dispatch (.detection [scenario_egg] scenario_frame)
        turning_state).invalid_transitions = turning_state.invalid_transitions + 1 ∧
    (dispatch (.detection [scenario_egg] scenario_frame) turning_state).fsm =
      .turn_first := by decide

/-- Witness for claim C2: the amended theorem applied at the TurnFirst
counterexample state. -/
theorem C2_witness :
    (turning_state.fsm = .turn_first ∨ turning_state.fsm = .turn_second) ∧
    ((handle_detection [scenario_egg] scenario_frame turning_state).fsm =
        turning_state.fsm ∧
      ((handle_detection [scenario_egg] scenario_frame
          turning_state).invalid_transitions = turning_state.invalid_transitions ∨
       (handle_detection [scenario_egg] scenario_frame
          turning_state).invalid_transitions =
         turning_state.invalid_transitions + 1)) :=
  ⟨by decide,
   C2_amended [scenario_egg] scenario_frame turning_state (by decide)⟩
